import Mathlib

/-!
Shallow embedding of the content indexing and lifecycle engine of the
`git-blog` repository (src/router/post.go and src/router/router.go), together
with theorems settling the frozen claims about its specification.

Conventions used throughout:

* Go strings are modelled as Lean `String`.  All index arithmetic performed by
  the Go code on scraped HTML is byte based; here it is character based.  The
  two agree on the content considered because UTF-8 is self-synchronizing and
  every pattern the code searches for (`<h1>`, `<p>`, `<img`, `src="`, ...) is
  ASCII, so a byte-level occurrence of a valid pattern always falls on a
  character boundary.

* Filesystem state, the `git` binary and the blackfriday markdown renderer are
  external to the two source files; they are modelled explicitly as an
  environment (`Env`) and a mutable world (`World`).  `Env.readme name` is the
  content of `data/<name>/README.md` when that file exists, `Env.commitDate
  name` is the (total) result of `getLatestCommitDate("git/" ++ name)` --
  total because post.go:173-180 falls back to the wall clock on any failure --
  and `Env.render` is `blackfriday.Run`.

* The Go standard library `sort.Slice` (used by `sortPosts`, post.go:72-77) is
  an external collaborator.  The index synchronizer definitions are therefore
  parameterized by the slice-sort implementation `sortImpl`; the contract
  documented for `sort.Slice` (sorts by the comparator, stability NOT
  guaranteed) is the predicate `SortOk`.  The actual Go (>= 1.19)
  implementation, pdqsort, is embedded in full further below
  (`sortSliceGo` / `sortPostsGo`) and is used wherever a claim is settled
  against the concrete behaviour of the code.
-/

namespace GitBlog

/-- The `Post` record (post.go:19-26).  `Body` has Go type `template.HTML`,
which is a string. -/
structure Post where
  Name : String
  Title : String
  Body : String
  Banner : String
  Mtime : String
  State : String
deriving DecidableEq, Repr

instance : Inhabited Post := ⟨⟨"", "", "", "", "", ""⟩⟩

/-- The zero value of `Post` (every field empty), as produced by
`post := Post\x7b\x7d` in Go.  `getPostInfo` returns it together with an error
when `os.Stat` fails (post.go:80-85). -/
def zeroPost : Post := ⟨"", "", "", "", "", ""⟩

/-- First index (if any) at which `pat` occurs in `hay`; `strings.Index`
returns this index, or `-1` for `none`. -/
def listIndexOf (hay pat : List Char) : Option Nat :=
  if pat.isPrefixOf hay then some 0
  else
    match hay with
    | [] => none
    | _ :: t => (listIndexOf t pat).map (· + 1)

/-- `strings.Index` on strings. -/
def strIndex (s pat : String) : Option Nat :=
  listIndexOf s.data pat.data

/-- `strings.Contains s pat` (true iff `strings.Index` is non-negative). -/
def strContains (s pat : String) : Bool :=
  (strIndex s pat).isSome

/-- `strings.HasPrefix`. -/
def strStartsWith (s pre : String) : Bool :=
  pre.data.isPrefixOf s.data

/-- Go byte-wise lexicographic `<` on strings, on the character level.  For
valid UTF-8 (which Lean `String` always is) byte-wise and code-point-wise
lexicographic order coincide. -/
def listLt : List Char → List Char → Bool
  | _, [] => false
  | [], _ :: _ => true
  | a :: as, b :: bs =>
    if a.toNat < b.toNat then true
    else if b.toNat < a.toNat then false
    else listLt as bs

/-- Go `s < t` on strings. -/
def strLt (s t : String) : Bool :=
  listLt s.data t.data

/-- `strings.Split` with a NON-EMPTY separator (the only way the code uses
it): split at every left-to-right non-overlapping occurrence of `sep`,
dropping the separators.  The fuel (instantiated with `length + 1` by
`strSplitOn`) strictly dominates the number of separator occurrences.
(Go's distinct behaviour for an empty separator is not modelled; no call
site uses one.) -/
def splitOnList (sep : List Char) : Nat → List Char → List (List Char)
  | 0, hay => [hay]
  | fuel + 1, hay =>
    match listIndexOf hay sep with
    | none => [hay]
    | some i => hay.take i :: splitOnList sep fuel (hay.drop (i + sep.length))

/-- `strings.Split` on strings. -/
def strSplitOn (s sep : String) : List String :=
  (splitOnList sep.data (s.data.length + 1) s.data).map String.mk

/-- `strings.TrimSpace`: drop leading and trailing whitespace.  (Go trims by
`unicode.IsSpace`; `Char.isWhitespace` covers space, tab, CR and LF, which
agrees on all content appearing here.) -/
def strTrim (s : String) : String :=
  String.mk
    (((s.data.dropWhile Char.isWhitespace).reverse.dropWhile
      Char.isWhitespace).reverse)

/-- `strings.Split(s, "\n")[0]` (post.go:101).  `strings.Split` with a
non-empty separator never returns an empty slice, so taking index `0` is
safe. -/
def firstLineOf (s : String) : String :=
  (strSplitOn s "\n").headD ""

/-- The state classifier (post.go:100-111): the first line of the raw content
is inspected; if it starts with `<!--` it is scanned for the keywords
`public`, `private`, `delete` in that order, otherwise (or when no keyword
occurs) the configured default state is used. -/
def classifyState (mdContent defaultState : String) : String :=
  let firstLine := firstLineOf mdContent
  if strStartsWith firstLine "<!--" then
    if strContains firstLine "public" then "public"
    else if strContains firstLine "private" then "private"
    else if strContains firstLine "delete" then "delete"
    else defaultState
  else defaultState

/-- `extractH1Title` (post.go:198-208): the trimmed text between the first
`<h1>` and the first `</h1>` at or after it; empty when either tag is
missing. -/
def extractH1Title (htmlContent : String) : String :=
  match strIndex htmlContent "<h1>" with
  | none => ""
  | some index =>
    match listIndexOf (htmlContent.data.drop index) "</h1>".data with
    | none => ""
    | some endIndex =>
      strTrim (String.mk ((htmlContent.data.drop (index + 4)).take (endIndex - 4)))

/-- The loop of `extractFirstParagraph` (post.go:210-226), with an explicit
fuel argument.  Notes on faithfulness:

* when a `<p>` is found whose `</p>` is missing, the Go loop repeats forever
  without changing any state (the `paragraphEndIndex != -1` guard fails and
  nothing advances `index`); the model returns the `body` accumulated at that
  point.  This branch is not reached on any input appearing in the theorems
  below;
* when the accepted paragraph contains `<img`, the Go code advances `index`
  by `paragraphEndIndex + 4` -- NOT by `paragraphIndex + paragraphEndIndex +
  4` -- and this off-by-`paragraphIndex` advance is reproduced exactly;
* each productive iteration advances `index` by at least 4, so fuel
  `length + 1` (supplied by `extractFirstParagraph`) is never exhausted on a
  terminating execution. -/
def extractFirstParagraphLoop (html : List Char) (index : Nat) (body : String) :
    Nat → String
  | 0 => body
  | fuel + 1 =>
    match listIndexOf (html.drop index) "<p>".data with
    | none => body
    | some paragraphIndex =>
      match listIndexOf (html.drop (index + paragraphIndex)) "</p>".data with
      | none => body
      | some paragraphEndIndex =>
        let body :=
          strTrim (String.mk ((html.drop (index + paragraphIndex)).take
            (paragraphEndIndex + 4)))
        if strContains body "<img" then
          extractFirstParagraphLoop html (index + paragraphEndIndex + 4) body fuel
        else body

/-- `extractFirstParagraph` (post.go:210-226): the first paragraph block not
containing an image, returned with its own markup, trimmed. -/
def extractFirstParagraph (htmlContent : String) : String :=
  extractFirstParagraphLoop htmlContent.data 0 "" (htmlContent.length + 1)

/-- `extractFirstImage` (post.go:228-250): the `src` attribute of the first
`<img` tag, empty when absent. -/
def extractFirstImage (htmlContent : String) : String :=
  let imgTags := strSplitOn htmlContent "<img"
  if imgTags.length < 2 then ""
  else
    let t1 := imgTags.getD 1 ""
    match strIndex t1 ">" with
    | none => ""
    | some imgTagEnd =>
      let imgTag := String.mk (t1.data.take imgTagEnd)
      match strIndex imgTag "src=\"" with
      | none => ""
      | some srcIndex =>
        let imgSrc := String.mk (imgTag.data.drop (srcIndex + 5))
        match strIndex imgSrc "\"" with
        | none => ""
        | some imgSrcEnd => String.mk (imgSrc.data.take imgSrcEnd)

/-- The read-only environment of one operation: content of working copies,
results of the external git queries, the markdown renderer, the configured
default state, and the success of the fallible filesystem calls.

* `readme n` -- content of `data/<n>/README.md`, `none` when the file is
  absent (the working copy for `n` must also exist, see `getPostInfo`);
* `commitDate n` -- result of `getLatestCommitDate("git/" ++ n)`
  (post.go:173-180), total because that function masks every failure with the
  current wall-clock time;
* `render` -- `blackfriday.Run`;
* `defaultState` -- `config.PostDefaultState`;
* `readDirOk` -- whether `os.ReadDir(dataDir)` succeeds (post.go:32-35);
* `writeOk` -- whether `os.WriteFile(postListJson, ...)` succeeds
  (post.go:64, post.go:156);
* `cloneOk n` -- whether `git clone git/<n> data/<n>` succeeds
  (post.go:265-269): false when the backing repository is missing or
  unreadable. -/
structure Env where
  readme : String → Option String
  commitDate : String → String
  render : String → String
  defaultState : String
  readDirOk : Bool
  writeOk : Bool
  cloneOk : String → Bool

/-- The mutable state of the engine: the package-level `posts` and
`publicPosts` slices (post.go:28-29), the set of working-copy directories
under `data/`, the set of backing repositories under `git/`, and the content
of the persisted index file `data/.pages/postsList.json` (`disk`).

Non-directory children of `data/` are not modelled: phase 1 of
`checkAllPosts` skips them (`file.IsDir()`), and in phase 2 `getPostInfo` on
such a name yields a stub record and a nil error, so nothing is appended for
them either. -/
structure World where
  posts : List Post
  publicPosts : List Post
  dataDirs : List String
  repoDirs : List String
  disk : List Post
deriving DecidableEq, Repr

/-- `getPostInfo` (post.go:79-124).  The error (`Except.error`) corresponds to
the `os.Stat` failure at post.go:82-85; a missing `README.md` (post.go:87-98)
is NOT an error and yields the minimal private stub record. -/
def getPostInfo (env : Env) (dataDirs : List String) (name : String) :
    Except Unit Post :=
  if dataDirs.contains name then
    match env.readme name with
    | none =>
      .ok { Name := name, Title := "", Body := "", Banner := "",
            Mtime := env.commitDate name, State := "private" }
    | some mdContent =>
      let state := classifyState mdContent env.defaultState
      let htmlContent := env.render mdContent
      .ok { Name := name
            Title := extractH1Title htmlContent
            Body := extractFirstParagraph htmlContent
            Banner := "data/" ++ name ++ "/" ++ extractFirstImage htmlContent
            Mtime := env.commitDate name
            State := state }
  else .error ()

/-- The comparator passed to `sort.Slice` by `sortPosts` (post.go:74):
`less(i, j) = posts[i].Mtime > posts[j].Mtime`, i.e. descending lexicographic
order on the timestamp strings. -/
def postLess (p q : Post) : Bool :=
  strLt q.Mtime p.Mtime

/-- Snapshot relation for the sorted index: the entry `b` that follows `a` is
not strictly newer, i.e. `b.Mtime <= a.Mtime` (descending order). -/
def mtimeGe (a b : Post) : Prop :=
  b.Mtime ≤ a.Mtime

instance : DecidableRel mtimeGe :=
  fun a b => inferInstanceAs (Decidable (b.Mtime ≤ a.Mtime))

/-- The documented contract of `sort.Slice` with the `sortPosts` comparator:
the output is a permutation of the input, sorted by `Mtime` descending.
(Stability is deliberately NOT part of this contract; `sort.Slice` does not
guarantee it, see claim C5.) -/
def SortOk (sortImpl : List Post → List Post) : Prop :=
  ∀ l : List Post, (sortImpl l).Perm l ∧ (sortImpl l).Sorted mtimeGe

/-- The list manipulation of `deletePost` (post.go:162-167): remove the first
entry with the given name, if any. -/
def removeFirstByName (name : String) : List Post → List Post
  | [] => []
  | p :: rest =>
    if p.Name == name then rest else p :: removeFirstByName name rest

/-- `deletePost` (post.go:161-171): drop the first index entry named `name`
and remove both `data/<name>` and `git/<name>` (`os.RemoveAll`, whose errors
the code ignores). -/
def deletePost (name : String) (w : World) : World :=
  { w with
    posts := removeFirstByName name w.posts
    dataDirs := w.dataDirs.filter (fun d => d ≠ name)
    repoDirs := w.repoDirs.filter (fun d => d ≠ name) }

/-- The upsert of `updatePost` (post.go:133-143): replace the first entry
with the same name in place, or append at the end when no entry matches. -/
def upsertPost (post : Post) : List Post → List Post
  | [] => [post]
  | p :: rest =>
    if p.Name == post.Name then post :: rest else p :: upsertPost post rest

/-- `updatePost` (post.go:128-159), parameterized by the slice-sort
implementation `sortImpl` (see file header).  On error or a `delete`
classification the entry and both directories are removed; otherwise the
record is upserted.  The index is then sorted, the public subset recomputed
(post.go:148-153) and the index persisted -- with BOTH the
`json.MarshalIndent` and the `os.WriteFile` errors silently discarded
(post.go:155-156): on a failed write `disk` keeps its previous content and no
failure is reported (the function returns only the new state). -/
def updatePost (env : Env) (sortImpl : List Post → List Post) (name : String)
    (w : World) : World :=
  let w1 :=
    match getPostInfo env w.dataDirs name with
    | .error _ => deletePost name w
    | .ok post =>
      if post.State == "delete" then deletePost name w
      else { w with posts := upsertPost post w.posts }
  let sorted := sortImpl w1.posts
  { w1 with
    posts := sorted
    publicPosts := sorted.filter (fun p => p.State == "public")
    disk := if env.writeOk then sorted else w1.disk }

/-- `checkAllPosts` (post.go:31-70), parameterized by the slice-sort
implementation.  Returns the final engine state together with the function's
error result.

* `os.ReadDir(dataDir)` (post.go:32) is modelled as the snapshot
  `w.dataDirs`; on failure the function returns early with the error and no
  state change.
* Phase 1 (post.go:37-41) runs `updatePost` for every directory of the
  snapshot, assigning the result to the index each time.
* Phase 2 (post.go:43-48) calls `getPostInfo` for every entry of the SAME
  snapshot and appends the returned record exactly when the call FAILS -- for
  a directory deleted in phase 1, `os.Stat` now fails and the appended record
  is the zero value `zeroPost`.
* Finally the index is sorted, the public subset recomputed and the index
  persisted; `json.MarshalIndent` / `os.WriteFile` failures are returned to
  the caller (post.go:59-67) -- but only after the package-level state has
  already been mutated. -/
def checkAllPostsRun (env : Env) (sortImpl : List Post → List Post)
    (w : World) : World × Except Unit Unit :=
  if !env.readDirOk then (w, .error ())
  else
    let files := w.dataDirs
    let w1 := files.foldl (fun acc n => updatePost env sortImpl n acc) w
    let w2 := files.foldl
      (fun acc n =>
        match getPostInfo env acc.dataDirs n with
        | .error _ => { acc with posts := acc.posts ++ [zeroPost] }
        | .ok _ => acc)
      w1
    let sorted := sortImpl w2.posts
    let w3 :=
      { w2 with
        posts := sorted
        publicPosts := sorted.filter (fun p => p.State == "public")
        disk := if env.writeOk then sorted else w2.disk }
    (w3, if env.writeOk then .ok () else .error ())

/-- `extractGitData` (post.go:252-277): remove any existing working copy,
clone the backing repository into `data/<name>`, strip `.git`.  Both the
clone failure and the removal failures are handled with `log.Fatalf`, which
TERMINATES THE PROCESS; termination is modelled as `none`.  (The `RemoveAll`
calls are modelled as succeeding; only the clone failure, i.e. an unreadable
or missing backing repository, is relevant to the claims.) -/
def extractGitData (env : Env) (name : String) (w : World) : Option World :=
  if env.cloneOk name then
    some { w with dataDirs := name :: w.dataDirs.filter (fun d => d ≠ name) }
  else none

/-- `extractAllGitData` (post.go:279-292): materialize every directory found
under the repository root, in order.  A `log.Fatalf` inside `extractGitData`
aborts the whole batch (and the process): once `none`, the remaining
directories are never processed. -/
def extractAllGitData (env : Env) (w : World) : Option World :=
  w.repoDirs.foldl
    (fun acc n =>
      match acc with
      | none => none
      | some cur => extractGitData env n cur)
    (some w)

/-- The package-level `posts` slice that remains visible after
`updatePost(name, posts)` is called WITH ITS RESULT DISCARDED, as the push
trigger does (`gitUpdate`, router.go:122-129: `updatePost(gitName, posts)`).

Derived from Go slice semantics: the parameter `posts` is a copy of the
slice header aliasing the same backing array, so in-place writes remain
visible to the package variable while re-slicings (`append`, the shortened
slice returned by `deletePost`) do not change its length.  Case analysis on
updatePost:

* delete path, entry found at `i` (post.go:164): `append(posts[:i],
  posts[i+1:]...)` shifts elements `i+1 .. n-1` one slot left inside the same
  array and leaves the old last element duplicated at position `n-1`; the
  subsequent in-place `sort.Slice` acts on the shortened local slice
  (positions `0 .. n-2`).  The package variable, still of length `n`, shows
  the sorted remainder followed by the stale old last element.
* delete path, no entry found: the local slice is `posts` itself and the
  in-place sort is fully visible.
* upsert path, entry found at `i`: `posts[i] = post` and the sort are both
  in place and fully visible.
* upsert path, append: whether the new element is visible depends on the
  runtime capacity of the slice; `reallocOnAppend` selects between the two
  possible outcomes (reallocation: the package variable is untouched;
  in-place growth: it shows the first `n` elements of the sorted `n+1`-element
  array). -/
def globalPostsAfterDiscardedUpdate (env : Env)
    (sortImpl : List Post → List Post) (reallocOnAppend : Bool)
    (name : String) (dataDirs : List String) (g : List Post) : List Post :=
  let isDelete :=
    match getPostInfo env dataDirs name with
    | .error _ => true
    | .ok post => post.State == "delete"
  if isDelete then
    match g.findIdx? (fun p => p.Name == name) with
    | none => sortImpl g
    | some i => sortImpl (g.eraseIdx i) ++ g.drop (g.length - 1)
  else
    match getPostInfo env dataDirs name with
    | .error _ => g
    | .ok post =>
      match g.findIdx? (fun p => p.Name == name) with
      | some i => sortImpl (g.set i post)
      | none =>
        if reallocOnAppend then g
        else (sortImpl (g ++ [post])).take g.length

/-- The whole push trigger `gitUpdate` (router.go:122-129) for a
`git-receive-pack` request naming `name`: `extractGitData(name)` (which can
terminate the process, `none`) followed by `updatePost(name, posts)` whose
result is discarded.  Returns the package-level `posts` slice after the
trigger. -/
def gitUpdateGlobalPosts (env : Env) (sortImpl : List Post → List Post)
    (reallocOnAppend : Bool) (name : String) (w : World) :
    Option (List Post) :=
  match extractGitData env name w with
  | none => none
  | some w2 =>
    some (globalPostsAfterDiscardedUpdate env sortImpl reallocOnAppend name
      w2.dataDirs w.posts)

/-- A mutating operation of the index synchronizer: a full rebuild
(`checkAllPosts`) or a push-triggered incremental update of one id
(`updatePost`).  Each operation carries the environment it observes, so a
sequence of operations can see the filesystem in different states. -/
inductive Op where
  | rebuild (env : Env)
  | push (env : Env) (name : String)

/-- Apply one mutating operation to the engine state.  For `push` this is the
index value computed, persisted and filtered by `updatePost`; the defect of
the trigger discarding the returned slice is treated separately (claims C1
and C3, `globalPostsAfterDiscardedUpdate`). -/
def applyOp (sortImpl : List Post → List Post) (w : World) : Op → World
  | .rebuild env => (checkAllPostsRun env sortImpl w).1
  | .push env name => updatePost env sortImpl name w

/-- Run a sequence of mutating operations. -/
def runOps (sortImpl : List Post → List Post) (ops : List Op) (w : World) :
    World :=
  ops.foldl (applyOp sortImpl) w

/-!
## The actual `sort.Slice` implementation

`sortPosts` (post.go:72-77) delegates to the Go standard library
`sort.Slice`, which since Go 1.19 is pdqsort (src/sort/zsortfunc.go; the
transcription below follows Go 1.21).  It is embedded here in full, generic
over the comparator, because claim C5 is about a property (stability) that
`sort.Slice` explicitly does not guarantee and that depends on the concrete
algorithm.  Loops are modelled by fuel recursion; every fuel argument is
chosen at least as large as the maximal number of iterations of the
corresponding Go loop, so fuel exhaustion is unreachable.  Slice accesses use the
positional `aget`/`aswap`; all indices produced by the algorithm are in
bounds.
-/

/-- Go `data.Less`-style positional access: the sorted slice is modelled as
a positional list. -/
def aget [Inhabited α] (l : List α) (i : Nat) : α :=
  l.getD i default

/-- Go `data.Swap(i, j)`: exchange two positions (both always in bounds at
every call site below). -/
def aswap [Inhabited α] (l : List α) (i j : Nat) : List α :=
  (l.set i (aget l j)).set j (aget l i)

/-- Inner loop of `insertionSort_func`: shift element `j` left while it is
less than its predecessor and `j > a`. -/
def insertionSortInner (less : α → α → Bool) [Inhabited α] (a : Nat) :
    Nat → List α → List α
  | 0, arr => arr
  | j + 1, arr =>
    if a < j + 1 && less (aget arr (j + 1)) (aget arr j) then
      insertionSortInner less a j (aswap arr (j + 1) j)
    else arr

/-- Outer loop of `insertionSort_func`: `for i := a + 1; i < b; i++`. -/
def insertionSortOuter (less : α → α → Bool) [Inhabited α] (a b : Nat) :
    Nat → Nat → List α → List α
  | _, 0, arr => arr
  | i, fuel + 1, arr =>
    if i < b then
      insertionSortOuter less a b (i + 1) fuel (insertionSortInner less a i arr)
    else arr

/-- `insertionSort_func(data, a, b)`: insertion sort of `data[a:b]`. -/
def insertionSortGo (less : α → α → Bool) [Inhabited α] (arr : List α)
    (a b : Nat) : List α :=
  insertionSortOuter less a b (a + 1) b arr

/-- `siftDown_func(data, lo, hi, first)` with `root` starting at `lo`. -/
def siftDownGo (less : α → α → Bool) [Inhabited α] (first hi : Nat) :
    Nat → Nat → List α → List α
  | _, 0, arr => arr
  | root, fuel + 1, arr =>
    let child := 2 * root + 1
    if child ≥ hi then arr
    else
      let child :=
        if child + 1 < hi &&
            less (aget arr (first + child)) (aget arr (first + child + 1))
        then child + 1 else child
      if !less (aget arr (first + root)) (aget arr (first + child)) then arr
      else
        siftDownGo less first hi child fuel
          (aswap arr (first + root) (first + child))

/-- Heap construction loop of `heapSort_func`:
`for i := (hi-1)/2; i >= 0; i--`. -/
def heapSortBuild (less : α → α → Bool) [Inhabited α] (first hi : Nat) :
    Nat → List α → List α
  | 0, arr => arr
  | c + 1, arr =>
    heapSortBuild less first hi c (siftDownGo less first hi c (hi + 1) arr)

/-- Pop loop of `heapSort_func`: `for i := hi - 1; i >= 0; i--`. -/
def heapSortPop (less : α → α → Bool) [Inhabited α] (first : Nat) :
    Nat → List α → List α
  | 0, arr => arr
  | i + 1, arr =>
    let arr := aswap arr first (first + i)
    heapSortPop less first i (siftDownGo less first i 0 (i + 1) arr)

/-- `heapSort_func(data, a, b)`. -/
def heapSortGo (less : α → α → Bool) [Inhabited α] (arr : List α)
    (a b : Nat) : List α :=
  let first := a
  let hi := b - a
  let arr := heapSortBuild less first hi ((hi - 1) / 2 + 1) arr
  heapSortPop less first hi arr

/-- One step of the `xorshift` pseudo-random generator used by
`breakPatterns_func` (uint64 arithmetic). -/
def xorshiftNext (r : Nat) : Nat :=
  let m := 2 ^ 64
  let r := (r ^^^ (r <<< 13)) % m
  let r := (r ^^^ (r >>> 7)) % m
  let r := (r ^^^ (r <<< 17)) % m
  r

/-- `math/bits.Len` on a non-negative integer. -/
def bitsLen (n : Nat) : Nat :=
  if n = 0 then 0 else Nat.log2 n + 1

/-- `nextPowerOfTwo(length) = 1 << bits.Len(uint(length))`. -/
def nextPowerOfTwo (length : Nat) : Nat :=
  2 ^ bitsLen length

/-- `breakPatterns_func(data, a, b)`: scatter three elements near the middle
using the xorshift generator seeded with the range length. -/
def breakPatternsGo [Inhabited α] (arr : List α) (a b : Nat) : List α :=
  let length := b - a
  if length ≥ 8 then
    let modulus := nextPowerOfTwo length
    let idx := a + (length / 4) * 2 - 1
    let step := fun (st : Nat × List α) (i : Nat) =>
      let r := xorshiftNext st.1
      let other := r % modulus
      let other := if other ≥ length then other - length else other
      (r, aswap st.2 (idx + i) (other + a))
    (([0, 1, 2] : List Nat).foldl step (length, arr)).2
  else arr

/-- The sortedness hints of `choosePivot_func`. -/
inductive SortedHint where
  | unknownHint
  | increasingHint
  | decreasingHint
deriving DecidableEq, Repr

/-- `order2_func`: return the two indices in increasing element order,
counting one swap when they were inverted. -/
def order2Go (less : α → α → Bool) [Inhabited α] (arr : List α)
    (a b swaps : Nat) : Nat × Nat × Nat :=
  if less (aget arr b) (aget arr a) then (b, a, swaps + 1) else (a, b, swaps)

/-- `median_func`: index of the median of three elements. -/
def medianGo (less : α → α → Bool) [Inhabited α] (arr : List α)
    (a b c swaps : Nat) : Nat × Nat :=
  let (a, b, swaps) := order2Go less arr a b swaps
  let (b, _, swaps) := order2Go less arr b c swaps
  let (_, b, swaps) := order2Go less arr a b swaps
  (b, swaps)

/-- `medianAdjacent_func`: median of `data[a-1], data[a], data[a+1]`. -/
def medianAdjacentGo (less : α → α → Bool) [Inhabited α] (arr : List α)
    (a swaps : Nat) : Nat × Nat :=
  medianGo less arr (a - 1) a (a + 1) swaps

/-- `choosePivot_func(data, a, b)`: static pivot below 8 elements,
median-of-three below 50, Tukey ninther from 50 on; the swap count yields the
sortedness hint (0 -> increasing, 12 -> decreasing). -/
def choosePivotGo (less : α → α → Bool) [Inhabited α] (arr : List α)
    (a b : Nat) : Nat × SortedHint :=
  let l := b - a
  let i := a + l / 4 * 1
  let j := a + l / 4 * 2
  let k := a + l / 4 * 3
  let (j, swaps) :=
    if l ≥ 8 then
      let (i, j, k, swaps) :=
        if l ≥ 50 then
          let (i, s) := medianAdjacentGo less arr i 0
          let (j, s) := medianAdjacentGo less arr j s
          let (k, s) := medianAdjacentGo less arr k s
          (i, j, k, s)
        else (i, j, k, 0)
      medianGo less arr i j k swaps
    else (j, 0)
  if swaps == 0 then (j, SortedHint.increasingHint)
  else if swaps == 12 then (j, SortedHint.decreasingHint)
  else (j, SortedHint.unknownHint)

/-- Loop of `reverseRange_func`. -/
def reverseRangeLoop [Inhabited α] : Nat → Nat → Nat → List α → List α
  | 0, _, _, arr => arr
  | fuel + 1, i, j, arr =>
    if i < j then reverseRangeLoop fuel (i + 1) (j - 1) (aswap arr i j)
    else arr

/-- `reverseRange_func(data, a, b)`. -/
def reverseRangeGo [Inhabited α] (arr : List α) (a b : Nat) : List α :=
  reverseRangeLoop b a (b - 1) arr

/-- Advance loop of `partialInsertionSort_func`:
`for i < b && !data.Less(i, i-1) do i++`. -/
def pisAdvance (less : α → α → Bool) [Inhabited α] (b : Nat) (arr : List α) :
    Nat → Nat → Nat
  | 0, i => i
  | fuel + 1, i =>
    if i < b && !less (aget arr i) (aget arr (i - 1)) then
      pisAdvance less b arr fuel (i + 1)
    else i

/-- Left shift loop of `partialInsertionSort_func`:
`for j := i - 1; j >= 1; j--`. -/
def pisShiftLeft (less : α → α → Bool) [Inhabited α] :
    Nat → List α → List α
  | 0, arr => arr
  | j + 1, arr =>
    if less (aget arr (j + 1)) (aget arr j) then
      pisShiftLeft less j (aswap arr (j + 1) j)
    else arr

/-- Right shift loop of `partialInsertionSort_func`:
`for j := i + 1; j < b; j++`. -/
def pisShiftRight (less : α → α → Bool) [Inhabited α] (b : Nat) :
    Nat → Nat → List α → List α
  | 0, _, arr => arr
  | fuel + 1, j, arr =>
    if j < b && less (aget arr j) (aget arr (j - 1)) then
      pisShiftRight less b fuel (j + 1) (aswap arr j (j - 1))
    else arr

/-- The step loop of `partialInsertionSort_func` (at most `maxSteps = 5`
adjacent out-of-order pairs get shifted; `shortestShifting = 50`). -/
def pisSteps (less : α → α → Bool) [Inhabited α] (a b : Nat) :
    Nat → Nat → List α → Bool × List α
  | 0, _, arr => (false, arr)
  | step + 1, i, arr =>
    let i := pisAdvance less b arr (b + 1) i
    if i == b then (true, arr)
    else if b - a < 50 then (false, arr)
    else
      let arr := aswap arr i (i - 1)
      let arr := if i - a ≥ 2 then pisShiftLeft less (i - 1) arr else arr
      let arr := if b - i ≥ 2 then pisShiftRight less b b (i + 1) arr else arr
      pisSteps less a b step i arr

/-- `partialInsertionSort_func(data, a, b)`: partially sort, reporting
whether the range ended up sorted. -/
def pisGo (less : α → α → Bool) [Inhabited α] (arr : List α) (a b : Nat) :
    Bool × List α :=
  pisSteps less a b 5 (a + 1) arr

/-- Forward scan of `partition_func`: `for i <= j && data.Less(i, a)`. -/
def partScanLt (less : α → α → Bool) [Inhabited α] (arr : List α)
    (a j : Nat) : Nat → Nat → Nat
  | 0, i => i
  | fuel + 1, i =>
    if i ≤ j && less (aget arr i) (aget arr a) then
      partScanLt less arr a j fuel (i + 1)
    else i

/-- Backward scan of `partition_func`: `for i <= j && !data.Less(j, a)`. -/
def partScanGe (less : α → α → Bool) [Inhabited α] (arr : List α)
    (a i : Nat) : Nat → Nat → Nat
  | 0, j => j
  | fuel + 1, j =>
    if i ≤ j && !less (aget arr j) (aget arr a) then
      partScanGe less arr a i fuel (j - 1)
    else j

/-- Main loop of `partition_func` after the first exchange. -/
def partitionLoop (less : α → α → Bool) [Inhabited α] (a fuelScan : Nat) :
    Nat → Nat → Nat → List α → Nat × List α
  | 0, _, j, arr => (j, arr)
  | fuel + 1, i, j, arr =>
    let i := partScanLt less arr a j fuelScan i
    let j := partScanGe less arr a i fuelScan j
    if i > j then (j, arr)
    else partitionLoop less a fuelScan fuel (i + 1) (j - 1) (aswap arr i j)

/-- `partition_func(data, a, b, pivot)`: Hoare partition around the pivot
element (moved to position `a` first); returns the new pivot position,
whether the range was already partitioned, and the permuted array. -/
def partitionGo (less : α → α → Bool) [Inhabited α] (arr : List α)
    (a b pivot : Nat) : Nat × Bool × List α :=
  let arr := aswap arr a pivot
  let i := a + 1
  let j := b - 1
  let i := partScanLt less arr a j (b + 1) i
  let j := partScanGe less arr a i (b + 1) j
  if i > j then (j, true, aswap arr j a)
  else
    let arr := aswap arr i j
    let (j, arr) := partitionLoop less a (b + 1) (b + 1) (i + 1) (j - 1) arr
    (j, false, aswap arr j a)

/-- Forward scan of `partitionEqual_func`: `for i <= j && !data.Less(a, i)`. -/
def peqScanLe (less : α → α → Bool) [Inhabited α] (arr : List α)
    (a j : Nat) : Nat → Nat → Nat
  | 0, i => i
  | fuel + 1, i =>
    if i ≤ j && !less (aget arr a) (aget arr i) then
      peqScanLe less arr a j fuel (i + 1)
    else i

/-- Backward scan of `partitionEqual_func`: `for i <= j && data.Less(a, j)`. -/
def peqScanGt (less : α → α → Bool) [Inhabited α] (arr : List α)
    (a i : Nat) : Nat → Nat → Nat
  | 0, j => j
  | fuel + 1, j =>
    if i ≤ j && less (aget arr a) (aget arr j) then
      peqScanGt less arr a i fuel (j - 1)
    else j

/-- Main loop of `partitionEqual_func`. -/
def partitionEqualLoop (less : α → α → Bool) [Inhabited α] (a fuelScan : Nat) :
    Nat → Nat → Nat → List α → Nat × List α
  | 0, i, _, arr => (i, arr)
  | fuel + 1, i, j, arr =>
    let i := peqScanLe less arr a j fuelScan i
    let j := peqScanGt less arr a i fuelScan j
    if i > j then (i, arr)
    else partitionEqualLoop less a fuelScan fuel (i + 1) (j - 1) (aswap arr i j)

/-- `partitionEqual_func(data, a, b, pivot)`: partition into elements equal
to and greater than the pivot; returns the first index of the strictly
greater part. -/
def partitionEqualGo (less : α → α → Bool) [Inhabited α] (arr : List α)
    (a b pivot : Nat) : Nat × List α :=
  let arr := aswap arr a pivot
  partitionEqualLoop less a (b + 1) (b + 1) (a + 1) (b - 1) arr

/-- `pdqsort_func(data, a, b, limit)` (the main loop; the Go `for`/`continue`
structure and the recursion into the shorter side are both modelled by
recursion on fuel, which strictly dominates the number of loop iterations
plus recursive calls along any path). -/
def pdqsortLoop (less : α → α → Bool) [Inhabited α] :
    Nat → Nat → Nat → Nat → Bool → Bool → List α → List α
  | 0, _, _, _, _, _, arr => arr
  | fuel + 1, a, b, limit, wasBalanced, wasPartitioned, arr =>
    let length := b - a
    if length ≤ 12 then insertionSortGo less arr a b
    else if limit == 0 then heapSortGo less arr a b
    else
      let (arr, limit) :=
        if !wasBalanced then (breakPatternsGo arr a b, limit - 1)
        else (arr, limit)
      let (pivot, hint) := choosePivotGo less arr a b
      let (arr, pivot, hint) :=
        if hint == SortedHint.decreasingHint then
          (reverseRangeGo arr a b, (b - 1) - (pivot - a),
            SortedHint.increasingHint)
        else (arr, pivot, hint)
      let (sortedNow, arr) :=
        if wasBalanced && wasPartitioned &&
            hint == SortedHint.increasingHint then
          pisGo less arr a b
        else (false, arr)
      if sortedNow then arr
      else if a > 0 && !less (aget arr (a - 1)) (aget arr pivot) then
        let (mid, arr) := partitionEqualGo less arr a b pivot
        pdqsortLoop less fuel mid b limit wasBalanced wasPartitioned arr
      else
        let (mid, alreadyPartitioned, arr) := partitionGo less arr a b pivot
        let wasPartitioned := alreadyPartitioned
        let leftLen := mid - a
        let rightLen := b - mid
        let balanceThreshold := length / 8
        let wasBalanced := decide (min leftLen rightLen ≥ balanceThreshold)
        if leftLen < rightLen then
          let arr := pdqsortLoop less fuel a mid limit true true arr
          pdqsortLoop less fuel (mid + 1) b limit wasBalanced wasPartitioned arr
        else
          let arr := pdqsortLoop less fuel (mid + 1) b limit true true arr
          pdqsortLoop less fuel a mid limit wasBalanced wasPartitioned arr

/-- `pdqsort_func` on a whole array, with the initial `limit =
bits.Len(uint(length))` exactly as in `sort.Slice`. -/
def pdqsortGo (less : α → α → Bool) [Inhabited α] (arr : List α) : List α :=
  pdqsortLoop less (arr.length + 64) 0 arr.length (bitsLen arr.length) true true arr

/-- `sort.Slice(x, less)` on a list. -/
def sortSliceGo (less : α → α → Bool) [Inhabited α] (l : List α) : List α :=
  pdqsortGo less l

/-- `sortPosts` (post.go:72-77): `sort.Slice` with the descending-`Mtime`
comparator. -/
def sortPostsGo (posts : List Post) : List Post :=
  sortSliceGo postLess posts

/-!
## Spec-side model of the classifier and concrete scenario fixtures
-/

/-- Modelled from the spec wording (State Classifier): if the first line is a
comment-style annotation it is scanned for the keywords `public`, `private`,
`delete` checked in that fixed priority order, the first matching keyword
winning; if none match, or the line is not an annotation, the supplied
default state is used.  To be compared with `classifyState`, the definition
taken from the source. -/
def classifySpecModel (mdContent defaultState : String) : String :=
  let firstLine := firstLineOf mdContent
  if strStartsWith firstLine "<!--" then
    match ["public", "private", "delete"].find?
        (fun kw => strContains firstLine kw) with
    | some kw => kw
    | none => defaultState
  else defaultState

/-- The blackfriday v2 rendering (external collaborator, modelled) of the
markdown document `# Title`, blank line, `![img](a.png)`, blank line,
`First real paragraph.`: a level-1 heading, a paragraph containing only the
image, and a text paragraph.  blackfriday v2 with its default
`CommonExtensions` emits plain `<h1>` tags (no automatic heading ids) and
XHTML-style image tags with `src` before `alt`.  The extraction results
proved below do not depend on the exact inter-block whitespace. -/
def sampleRenderedHtml : String :=
  "<h1>Title</h1>\n\n<p><img src=\"a.png\" alt=\"img\" /></p>\n\n<p>First real paragraph.</p>\n"

/-- A stored index record for the post `X` (claim C1 scenario). -/
def xPost : Post :=
  { Name := "X", Title := "t", Body := "", Banner := "",
    Mtime := "2024-01-02 03:04:05", State := "private" }

/-- Claim C1 scenario: after the push, the extracted content of `X` starts
with the line `<!-- delete -->`. -/
def envDelX : Env :=
  { readme := fun n => if n == "X" then some "<!-- delete -->\nbye" else none
    commitDate := fun _ => "2024-01-03 00:00:00"
    render := fun _ => ""
    defaultState := "public"
    readDirOk := true
    writeOk := true
    cloneOk := fun n => n == "X" }

/-- Claim C1 scenario: the engine currently holds exactly the post `X`. -/
def worldX : World :=
  { posts := [xPost], publicPosts := [], dataDirs := ["X"],
    repoDirs := ["X"], disk := [xPost] }

/-- A stored PUBLIC index record for the post `Y` (claim C3 scenario). -/
def yPost : Post :=
  { Name := "Y", Title := "", Body := "", Banner := "",
    Mtime := "2024-02-02 00:00:00", State := "public" }

/-- Claim C3 scenario: the pushed content of `Y` carries a delete
directive. -/
def envDelY : Env :=
  { readme := fun n => if n == "Y" then some "<!-- delete -->" else none
    commitDate := fun _ => "2024-02-03 00:00:00"
    render := fun _ => ""
    defaultState := "private"
    readDirOk := true
    writeOk := true
    cloneOk := fun n => n == "Y" }

/-- Claim C3 scenario: the engine holds exactly the public post `Y`. -/
def worldY : World :=
  { posts := [yPost], publicPosts := [yPost], dataDirs := ["Y"],
    repoDirs := ["Y"], disk := [yPost] }

/-- Claim C2 scenario: a full rebuild over a single directory `a` whose
README carries a delete directive. -/
def envDelA : Env :=
  { readme := fun n => if n == "a" then some "<!-- delete -->" else none
    commitDate := fun _ => "2024-01-01 00:00:00"
    render := fun _ => ""
    defaultState := "private"
    readDirOk := true
    writeOk := true
    cloneOk := fun _ => true }

/-- Claim C2 scenario: empty index, one working copy and one repository. -/
def worldA : World :=
  { posts := [], publicPosts := [], dataDirs := ["a"], repoDirs := ["a"],
    disk := [] }

/-- Claim C7 scenario: writing `postsList.json` fails. -/
def envNoWrite : Env :=
  { readme := fun n => if n == "a" then some "<!-- public -->" else none
    commitDate := fun _ => "2024-01-01 00:00:00"
    render := fun _ => ""
    defaultState := "private"
    readDirOk := true
    writeOk := false
    cloneOk := fun _ => true }

/-- Claim C7 scenario: empty index, the single post directory `a`. -/
def worldE : World :=
  { posts := [], publicPosts := [], dataDirs := ["a"], repoDirs := ["a"],
    disk := [] }

/-- The record built for `a` in the claim C7 scenario. -/
def paPost : Post :=
  { Name := "a", Title := "", Body := "", Banner := "data/a/",
    Mtime := "2024-01-01 00:00:00", State := "public" }

/-- Claim C8 scenario: the backing repository `a` cannot be cloned
(unreadable), `b` can. -/
def envCloneFail : Env :=
  { readme := fun _ => none
    commitDate := fun _ => "2024-01-01 00:00:00"
    render := fun _ => ""
    defaultState := "private"
    readDirOk := true
    writeOk := true
    cloneOk := fun n => n == "b" }

/-- Claim C8 scenario: two backing repositories `a` then `b`. -/
def worldR : World :=
  { posts := [], publicPosts := [], dataDirs := [], repoDirs := ["a", "b"],
    disk := [] }

/-- An index entry with the given name and timestamp (claim C5 scenario);
all such entries are pairwise distinct records distinguished by `Name`. -/
def stabPost (n m : String) : Post :=
  { Name := n, Title := "", Body := "", Banner := "", Mtime := m,
    State := "public" }

/-- Claim C5 scenario: a 13-entry index (13 > 12, so `sort.Slice` leaves the
pure insertion-sort regime and runs a quicksort partition).  The entries
`b` and `g` have equal `Mtime` `"2"`, with `b` preceding `g`. -/
def stabIn : List Post :=
  [stabPost "a" "0", stabPost "b" "2", stabPost "c" "4", stabPost "d" "1",
   stabPost "e" "3", stabPost "f" "0", stabPost "g" "2", stabPost "h" "4",
   stabPost "i" "1", stabPost "j" "3", stabPost "k" "0", stabPost "l" "2",
   stabPost "m" "4"]

/-- The result of `sortPostsGo stabIn` (verified below): the equal-`Mtime`
entries `b` and `g` come out in the order `g`, `l`, `b` although the input
order was `b`, `g`, `l`. -/
def stabOut : List Post :=
  [stabPost "h" "4", stabPost "m" "4", stabPost "c" "4", stabPost "j" "3",
   stabPost "e" "3", stabPost "g" "2", stabPost "l" "2", stabPost "b" "2",
   stabPost "i" "1", stabPost "d" "1", stabPost "a" "0", stabPost "f" "0",
   stabPost "k" "0"]

/-- A simple environment for the claim C4 witness. -/
def envSimple : Env :=
  { readme := fun n => if n == "a" then some "<!-- public -->" else none
    commitDate := fun _ => "2024-03-03 00:00:00"
    render := fun _ => ""
    defaultState := "private"
    readDirOk := true
    writeOk := true
    cloneOk := fun _ => true }

/-- The empty initial engine state (package variables at startup before any
mutation). -/
def w0 : World :=
  { posts := [], publicPosts := [], dataDirs := [], repoDirs := [],
    disk := [] }

/-- Claim C10 witness environment: `p` has a readable primary document,
`q` has none. -/
def env10 : Env :=
  { readme := fun n => if n == "p" then some "# T" else none
    commitDate := fun _ => "2024-05-05 05:05:05"
    render := fun md => md
    defaultState := "public"
    readDirOk := true
    writeOk := true
    cloneOk := fun _ => true }

/-- A concrete `SortOk` sort implementation (used to discharge the `SortOk`
hypothesis in witnesses): Mathlib insertion sort by `mtimeGe`. -/
def insSortP : List Post → List Post :=
  List.insertionSort mtimeGe

instance : IsTotal Post mtimeGe :=
  ⟨fun a b => le_total b.Mtime a.Mtime⟩

instance : IsTrans Post mtimeGe :=
  ⟨fun _ _ _ hab hbc => le_trans hbc hab⟩

/-!
## Theorems
-/

/-- The concrete witness sort implementation meets the `sort.Slice`
contract. -/
theorem insSortP_ok : SortOk insSortP :=
  fun l =>
    ⟨List.perm_insertionSort mtimeGe l, List.sorted_insertionSort mtimeGe l⟩

/-- A banner of the form `data/<id>/<src>` is never the empty string. -/
theorem banner_ne_empty (s t : String) : "data/" ++ s ++ "/" ++ t ≠ "" := by
  intro h
  have hlen := congrArg String.length h
  have h5 : ("data/" : String).length = 5 := rfl
  have h1 : ("/" : String).length = 1 := rfl
  simp [String.length_append, h5, h1] at hlen

/-- Every mutating operation leaves the index sorted by `Mtime` descending
(given the `sort.Slice` contract); a rebuild whose `ReadDir` fails mutates
nothing, so sortedness of the incoming state is preserved there. -/
theorem applyOp_posts_sorted (sortImpl : List Post → List Post)
    (hs : SortOk sortImpl) (w : World) (hw : w.posts.Sorted mtimeGe)
    (op : Op) : ((applyOp sortImpl w op).posts).Sorted mtimeGe := by
  cases op with
  | push env name =>
    exact (hs _).2
  | rebuild env =>
    cases h : env.readDirOk with
    | false =>
      simp only [applyOp, checkAllPostsRun, h, Bool.not_false, if_true]
      exact hw
    | true =>
      simp only [applyOp, checkAllPostsRun, h, Bool.not_true, if_false]
      exact (hs _).2

/-- C4 (confirmed): after every mutating call (full rebuild or incremental
update), for any sequence of rebuild/incremental operations started from a
sorted (e.g. empty) index, the in-memory index is sorted by `Mtime`
descending -- for every sort implementation meeting the documented
`sort.Slice` contract. -/
theorem c4_index_sorted_after_every_mutation
    (sortImpl : List Post → List Post) (hs : SortOk sortImpl) (w : World)
    (hw : w.posts.Sorted mtimeGe) (ops : List Op) :
    ((runOps sortImpl ops w).posts).Sorted mtimeGe := by
  induction ops generalizing w with
  | nil => exact hw
  | cons op ops ih => exact ih _ (applyOp_posts_sorted sortImpl hs w hw op)

/-- Witness for C4: the insertion-sort instance satisfies the contract, the
empty start state is sorted, and the theorem applies to a concrete push. -/
theorem c4_index_sorted_after_every_mutation_witness :
    SortOk insSortP ∧ (w0.posts.Sorted mtimeGe) ∧
      ((runOps insSortP [Op.push envSimple "a"] w0).posts).Sorted mtimeGe :=
  ⟨insSortP_ok, by simp [w0],
    c4_index_sorted_after_every_mutation insSortP insSortP_ok w0
      (by simp [w0]) [Op.push envSimple "a"]⟩

/-- C6 (confirmed): the classifier from the source agrees with the spec's
fixed-priority description on every raw content and every default state, and
in particular a first line containing both `public` and `delete` classifies
as `public`. -/
theorem c6_classifier_fixed_priority_order :
    (∀ mdContent defaultState : String,
        classifyState mdContent defaultState =
          classifySpecModel mdContent defaultState) ∧
    (∀ defaultState : String,
        classifyState "<!-- public delete -->" defaultState = "public") := by
  constructor
  · intro md d
    unfold classifyState classifySpecModel
    cases hpre : strStartsWith (firstLineOf md) "<!--"
    · simp [hpre]
    · cases hp : strContains (firstLineOf md) "public" <;>
        cases hv : strContains (firstLineOf md) "private" <;>
          cases hd : strContains (firstLineOf md) "delete" <;>
            simp [hp, hv, hd, List.find?]
  · intro d
    rfl

/-- C10 (confirmed): for every post whose primary document is readable, the
record produced by `getPostInfo` has banner `"data/" ++ id ++ "/" ++ src`
where `src` is the extracted first-image source; hence the banner is never
empty and equals `"data/" ++ id ++ "/"` when the rendered document has no
image.  The stub record for a missing document, in contrast, has an empty
banner. -/
theorem c10_banner_always_prefixed (env : Env) (dataDirs : List String)
    (name mdContent : String) (hmem : dataDirs.contains name = true)
    (hrd : env.readme name = some mdContent) :
    (∃ p : Post, getPostInfo env dataDirs name = Except.ok p ∧
        p.Banner =
          "data/" ++ name ++ "/" ++ extractFirstImage (env.render mdContent) ∧
        p.Banner ≠ "" ∧
        (extractFirstImage (env.render mdContent) = "" →
          p.Banner = "data/" ++ name ++ "/")) ∧
    (∀ n2 : String, dataDirs.contains n2 = true → env.readme n2 = none →
        getPostInfo env dataDirs n2 =
          Except.ok { Name := n2, Title := "", Body := "", Banner := "",
                      Mtime := env.commitDate n2, State := "private" }) := by
  replace hmem : name ∈ dataDirs := by simpa using hmem
  constructor
  · have hg : getPostInfo env dataDirs name =
        Except.ok
          { Name := name
            Title := extractH1Title (env.render mdContent)
            Body := extractFirstParagraph (env.render mdContent)
            Banner :=
              "data/" ++ name ++ "/" ++ extractFirstImage (env.render mdContent)
            Mtime := env.commitDate name
            State := classifyState mdContent env.defaultState } := by
      unfold getPostInfo
      simp [hmem, hrd]
    exact ⟨_, hg, rfl, banner_ne_empty _ _, fun h => by simp [h]⟩
  · intro n2 h1 h2
    replace h1 : n2 ∈ dataDirs := by simpa using h1
    unfold getPostInfo
    simp [h1, h2]

/-- Witness for C10, at a concrete environment where `p` has a readable
document and `q` has none. -/
theorem c10_banner_always_prefixed_witness :
    (["p", "q"].contains "p" = true) ∧
    (env10.readme "p" = some "# T") ∧
    ((∃ p : Post, getPostInfo env10 ["p", "q"] "p" = Except.ok p ∧
        p.Banner = "data/" ++ "p" ++ "/" ++ extractFirstImage (env10.render "# T") ∧
        p.Banner ≠ "" ∧
        (extractFirstImage (env10.render "# T") = "" →
          p.Banner = "data/" ++ "p" ++ "/")) ∧
    (∀ n2 : String, (["p", "q"] : List String).contains n2 = true →
        env10.readme n2 = none →
        getPostInfo env10 ["p", "q"] n2 =
          Except.ok { Name := n2, Title := "", Body := "", Banner := "",
                      Mtime := env10.commitDate n2, State := "private" })) :=
  ⟨by decide, rfl,
    c10_banner_always_prefixed env10 ["p", "q"] "p" "# T" (by decide) rfl⟩

/-- C1 (code bug, evaluated at the failing input): an incremental update of
the sole post `X` whose extracted first content line is `<!-- delete -->`.
The value computed by `updatePost` drops `X` everywhere -- index, public
subset, persisted file -- and removes both `data/X` and `git/X`; but the
push trigger discards the returned slice (`updatePost(gitName, posts)`,
router.go:127), so the package-level in-memory index still contains the
entry `X` after the trigger, contradicting the claim. -/
theorem c1_push_delete_leaves_stale_inmemory_entry :
    extractGitData envDelX "X" worldX = some worldX ∧
    (updatePost envDelX sortPostsGo "X" worldX).posts = [] ∧
    (updatePost envDelX sortPostsGo "X" worldX).publicPosts = [] ∧
    (updatePost envDelX sortPostsGo "X" worldX).dataDirs = [] ∧
    (updatePost envDelX sortPostsGo "X" worldX).repoDirs = [] ∧
    (updatePost envDelX sortPostsGo "X" worldX).disk = [] ∧
    gitUpdateGlobalPosts envDelX sortPostsGo false "X" worldX =
      some [xPost] := by
  decide

/-- C2 (code bug, evaluated at the failing input): a full rebuild over the
single directory `a` whose README carries a delete directive.  Phase 1
deletes the directory; phase 2 (post.go:43-48) then appends the record
returned together with the `os.Stat` error -- the zero value of `Post` --
so the rebuilt (and persisted) index stores a record whose state is the
empty string, neither `public` nor `private` (nor `delete`). -/
theorem c2_rebuild_after_delete_stores_zero_state_record :
    (checkAllPostsRun envDelA sortPostsGo worldA).1.posts = [zeroPost] ∧
    (checkAllPostsRun envDelA sortPostsGo worldA).1.disk = [zeroPost] ∧
    zeroPost.State ≠ "public" ∧ zeroPost.State ≠ "private" ∧
    zeroPost.State ≠ "delete" := by
  decide

/-- C3 (code bug, evaluated at the failing input): after a push deleting the
sole (public) post `Y`, the recomputed package-level public subset is empty,
but -- because the trigger discards `updatePost`'s returned slice
(router.go:127) -- the package-level index still contains the public entry
`Y`; the public subset is therefore NOT the public filter of the in-memory
index. -/
theorem c3_public_subset_diverges_from_inmemory_index :
    gitUpdateGlobalPosts envDelY sortPostsGo false "Y" worldY =
      some [yPost] ∧
    (updatePost envDelY sortPostsGo "Y" worldY).publicPosts = [] ∧
    [yPost].filter (fun p => p.State == "public") = [yPost] ∧
    (updatePost envDelY sortPostsGo "Y" worldY).publicPosts ≠
      [yPost].filter (fun p => p.State == "public") := by
  decide

set_option maxRecDepth 4000 in
/-- C5 (code bug, evaluated at the failing input): `sortPosts` uses
`sort.Slice`, whose pdqsort implementation is not stable.  On the 13-entry
index `stabIn`, the equal-`Mtime` entries `b` (input position 1) and `g`
(input position 6) come out in the opposite order (`g` at 5, `b` at 7), so
equal-timestamp entries do NOT retain their relative insertion order. -/
theorem c5_sortSlice_reorders_equal_mtime_entries :
    sortPostsGo stabIn = stabOut ∧
    stabIn.findIdx (fun p => p.Name == "b") = 1 ∧
    stabIn.findIdx (fun p => p.Name == "g") = 6 ∧
    stabOut.findIdx (fun p => p.Name == "g") = 5 ∧
    stabOut.findIdx (fun p => p.Name == "b") = 7 ∧
    (stabPost "b" "2").Mtime = (stabPost "g" "2").Mtime ∧
    (stabPost "b" "2").Name ≠ (stabPost "g" "2").Name := by
  decide

/-- C7 (code bug, evaluated at the failing input): when writing the
serialized index fails, the full rebuild (`checkAllPosts`) returns the
error, but the incremental update (`updatePost`) discards it
(post.go:155-156): it returns the fully updated in-memory state, whose
persisted copy (`disk`) silently kept its stale content, and its result type
carries no error at all. -/
theorem c7_incremental_update_ignores_persistence_failure :
    (checkAllPostsRun envNoWrite sortPostsGo worldE).2 = Except.error () ∧
    (updatePost envNoWrite sortPostsGo "a" worldE).posts = [paPost] ∧
    (updatePost envNoWrite sortPostsGo "a" worldE).publicPosts = [paPost] ∧
    (updatePost envNoWrite sortPostsGo "a" worldE).disk = [] := by
  refine ⟨rfl, by decide, by decide, by decide⟩

/-- C8 (code bug, evaluated at the failing input): during the batch rebuild
over the repositories `a`, `b`, the clone failure for `a` hits
`log.Fatalf` (post.go:268), terminating the whole process (`none`) before
`b` is ever processed -- even though extracting `b` alone would succeed. -/
theorem c8_batch_rebuild_aborts_on_extraction_failure :
    extractAllGitData envCloneFail worldR = none ∧
    extractGitData envCloneFail "b" worldR =
      some { worldR with dataDirs := ["b"] } := by
  decide

/-- C9 (confirmed): on the rendered HTML of the document `# Title`, image
paragraph `![img](a.png)`, paragraph `First real paragraph.`, metadata
extraction returns title `Title`, the paragraph block
`<p>First real paragraph.</p>` (the image-only paragraph is skipped) and
banner source `a.png`. -/
theorem c9_sample_document_metadata_extraction :
    extractH1Title sampleRenderedHtml = "Title" ∧
    extractFirstParagraph sampleRenderedHtml = "<p>First real paragraph.</p>" ∧
    extractFirstImage sampleRenderedHtml = "a.png" := by
  decide

end GitBlog
